import Mathlib

/-!
Shallow embedding of the interactive session concurrency core of the
agent-cli terminal front-end.

The embedded code comes from two source files:

* src/session.ts — the Session class: the Message Bridge
  (messageQueue / messageResolvers with queueMessage, getNextMessage,
  endMessageStream), the per-turn orchestration loop handlePrompt, and
  the interrupt callback handleInterrupt;
* src/input/handler.ts — the InputHandler class: line dispatch
  (handleLine, processInput), permission parsing
  (parsePermissionResponse), interrupt capture (submitInterrupt,
  enableCapture, disableCapture, getNextInterrupt) and the Ctrl+C
  keypress branch of setupRawMode.

JavaScript strings are modelled as lists of characters, so that every
operation the code performs on them (trim, toLowerCase, startsWith,
endsWith, includes, slice, join) is an executable structural function a
witness can evaluate.  Case folding is modelled at ASCII granularity,
which covers every literal the code compares against.

Promise resolution is made observable by bookkeeping logs: each bridge
resolver is identified by a number, and resolving it with a value (or
with the terminal null) appends an entry to a resolution log; every
call to queueMessage appends its payload to an enqueue log, so the
order in which the bridge receives payloads is a first-class value of
the model.
-/

namespace AgentCli

/-- A JavaScript string, as a list of characters. -/
abbrev Str := List Char

/-- View a Lean string literal as a character list. -/
def str (s : String) : Str := s.data

/-- JavaScript String.prototype.trim: remove leading and trailing
whitespace. -/
def strTrim (s : Str) : Str :=
  ((s.dropWhile Char.isWhitespace).reverse.dropWhile Char.isWhitespace).reverse

/-- JavaScript String.prototype.toLowerCase, at ASCII granularity. -/
def strToLower (s : Str) : Str :=
  s.map Char.toLower

/-- Payload type of the outbound bridge.  createUserMessage in
src/agent/bridge.ts wraps a content string into a fixed user-message
envelope; the envelope carries no other varying data, so the payload is
modelled by its content string. -/
structure UserMessageInput where
  content : Str
deriving DecidableEq, Repr

/-- createUserMessage from src/agent/bridge.ts. -/
def createUserMessage (content : Str) : UserMessageInput :=
  { content := content }

/-- State of the Message Bridge inside Session (src/session.ts):
messageQueue and messageResolvers are the two private arrays of the
class; resolvers are identified by numbers.  resolved records, in
order, every promise resolution (resolver id, delivered value, with
none standing for the terminal null); enqueued records every payload
ever passed to queueMessage, in call order.  The two logs are
write-only bookkeeping: no operation reads them. -/
structure BridgeState where
  messageQueue : List UserMessageInput := []
  messageResolvers : List Nat := []
  resolved : List (Nat × Option UserMessageInput) := []
  enqueued : List UserMessageInput := []
deriving DecidableEq, Repr

/-- Session.getNextMessage (src/session.ts lines 229-239): if the queue
is non-empty, shift its head and deliver it immediately; otherwise push
a resolver and leave the caller suspended. -/
def getNextMessage (s : BridgeState) (rid : Nat) : BridgeState :=
  match s.messageQueue with
  | m :: rest =>
      { s with messageQueue := rest, resolved := s.resolved ++ [(rid, some m)] }
  | [] =>
      { s with messageResolvers := s.messageResolvers ++ [rid] }

/-- Session.queueMessage (src/session.ts lines 244-252): if a resolver
is waiting, shift the oldest one and resolve it with the message;
otherwise push the message onto the queue. -/
def queueMessage (s : BridgeState) (m : UserMessageInput) : BridgeState :=
  match s.messageResolvers with
  | r :: rest =>
      { s with messageResolvers := rest,
               resolved := s.resolved ++ [(r, some m)],
               enqueued := s.enqueued ++ [m] }
  | [] =>
      { s with messageQueue := s.messageQueue ++ [m],
               enqueued := s.enqueued ++ [m] }

/-- Session.endMessageStream (src/session.ts lines 257-264): resolve
every pending resolver with null, then clear both arrays. -/
def endMessageStream (s : BridgeState) : BridgeState :=
  { s with resolved := s.resolved ++ s.messageResolvers.map (fun r => (r, none)),
           messageResolvers := [],
           messageQueue := [] }

/-- A bridge operation performed while the stream is open. -/
inductive BridgeOp where
  | queueMessage (m : UserMessageInput)
  | getNextMessage (rid : Nat)
deriving DecidableEq, Repr

/-- Run one bridge operation. -/
def bridgeStep (s : BridgeState) : BridgeOp → BridgeState
  | .queueMessage m => queueMessage s m
  | .getNextMessage rid => getNextMessage s rid

/-- Run a list of bridge operations in order. -/
def runBridge (ops : List BridgeOp) (s : BridgeState) : BridgeState :=
  ops.foldl bridgeStep s

/-- The values delivered to resolver rid, in delivery order. -/
def resolutionsOf (s : BridgeState) (rid : Nat) : List (Option UserMessageInput) :=
  (s.resolved.filter (fun p => p.1 == rid)).map Prod.snd

/-- All order-preserving interleavings of two lists. -/
def merges : List α → List α → List (List α)
  | [], ys => [ys]
  | x :: xs, [] => [x :: xs]
  | x :: xs, y :: ys =>
      (merges xs (y :: ys)).map (fun zs => x :: zs) ++
      (merges (x :: xs) ys).map (fun zs => y :: zs)

/-- C7: endMessageStream resolves every waiting resolver with the
terminal null value, leaves both the message queue and the resolver
list empty, and running it a second consecutive time (in particular
with no resolver pending) changes nothing. -/
theorem endMessageStream_total_idempotent (s : BridgeState) :
    (endMessageStream s).messageQueue = [] ∧
    (endMessageStream s).messageResolvers = [] ∧
    (endMessageStream s).resolved =
      s.resolved ++ s.messageResolvers.map (fun r => (r, none)) ∧
    endMessageStream (endMessageStream s) = endMessageStream s := by
  simp [endMessageStream]

/-- C1: Message Bridge FIFO law.  For every interleaving of
queueMessage x1, queueMessage x2 and two getNextMessage calls (resolver
ids 1 then 2) while the stream is open, resolver 1 is resolved exactly
once, with x1, and resolver 2 exactly once, with x2; nothing is left
queued or pending. -/
theorem bridge_fifo_law (x1 x2 : UserMessageInput) (ops : List BridgeOp)
    (h : ops ∈ merges [BridgeOp.queueMessage x1, BridgeOp.queueMessage x2]
      [BridgeOp.getNextMessage 1, BridgeOp.getNextMessage 2]) :
    resolutionsOf (runBridge ops {}) 1 = [some x1] ∧
    resolutionsOf (runBridge ops {}) 2 = [some x2] ∧
    (runBridge ops {}).messageQueue = [] ∧
    (runBridge ops {}).messageResolvers = [] := by
  simp only [merges, List.map, List.cons_append, List.nil_append,
    List.mem_cons, List.not_mem_nil, or_false] at h
  rcases h with h | h | h | h | h | h <;> subst h <;>
    simp [runBridge, bridgeStep, queueMessage, getNextMessage, resolutionsOf]

/-- Witness for C1 at a concrete interleaving: both requests arrive
before either enqueue. -/
theorem bridge_fifo_law_witness :
    resolutionsOf (runBridge [BridgeOp.getNextMessage 1, BridgeOp.getNextMessage 2,
      BridgeOp.queueMessage (createUserMessage (str "x1")),
      BridgeOp.queueMessage (createUserMessage (str "x2"))] {}) 1 =
      [some (createUserMessage (str "x1"))] ∧
    resolutionsOf (runBridge [BridgeOp.getNextMessage 1, BridgeOp.getNextMessage 2,
      BridgeOp.queueMessage (createUserMessage (str "x1")),
      BridgeOp.queueMessage (createUserMessage (str "x2"))] {}) 2 =
      [some (createUserMessage (str "x2"))] ∧
    (runBridge [BridgeOp.getNextMessage 1, BridgeOp.getNextMessage 2,
      BridgeOp.queueMessage (createUserMessage (str "x1")),
      BridgeOp.queueMessage (createUserMessage (str "x2"))] {}).messageQueue = [] ∧
    (runBridge [BridgeOp.getNextMessage 1, BridgeOp.getNextMessage 2,
      BridgeOp.queueMessage (createUserMessage (str "x1")),
      BridgeOp.queueMessage (createUserMessage (str "x2"))] {}).messageResolvers = [] :=
  bridge_fifo_law (createUserMessage (str "x1")) (createUserMessage (str "x2")) _
    (by simp [merges])

/-- The three valid permission answers of
InputHandler.getPermissionInput (src/input/handler.ts). -/
inductive PermissionResponse where
  | yes
  | no
  | always
deriving DecidableEq, Repr

/-- InputHandler.parsePermissionResponse (src/input/handler.ts lines
223-236): lower-case and trim the input, then match it against the
accepted answers; anything else yields null. -/
def parsePermissionResponse (input : Str) : Option PermissionResponse :=
  let normalized := strTrim (strToLower input)
  if normalized == str "y" || normalized == str "yes" then
    some .yes
  else if normalized == str "n" || normalized == str "no" then
    some .no
  else if normalized == str "a" || normalized == str "always" ||
      normalized == str "always allow" then
    some .always
  else
    none

/-- C9: parsePermissionResponse maps its input case-insensitively after
trimming: the allow-once answers are exactly y and yes, the deny
answers exactly n and no, the allow-always answers exactly a, always
and always allow, and every other input yields the invalid sentinel
none (the function is total, so nothing is ever raised). -/
theorem parsePermissionResponse_spec (input : Str) :
    (parsePermissionResponse input = some PermissionResponse.yes ↔
      strTrim (strToLower input) = str "y" ∨ strTrim (strToLower input) = str "yes") ∧
    (parsePermissionResponse input = some PermissionResponse.no ↔
      strTrim (strToLower input) = str "n" ∨ strTrim (strToLower input) = str "no") ∧
    (parsePermissionResponse input = some PermissionResponse.always ↔
      strTrim (strToLower input) = str "a" ∨ strTrim (strToLower input) = str "always" ∨
        strTrim (strToLower input) = str "always allow") ∧
    (parsePermissionResponse input = none ↔
      ¬ (strTrim (strToLower input) = str "y" ∨ strTrim (strToLower input) = str "yes" ∨
         strTrim (strToLower input) = str "n" ∨ strTrim (strToLower input) = str "no" ∨
         strTrim (strToLower input) = str "a" ∨ strTrim (strToLower input) = str "always" ∨
         strTrim (strToLower input) = str "always allow")) := by
  unfold parsePermissionResponse
  generalize strTrim (strToLower input) = n
  simp only [Bool.or_eq_true, beq_iff_eq]
  split_ifs with h1 h2 h3
  · rcases h1 with h | h <;> subst h <;> decide
  · rcases h2 with h | h <;> subst h <;> decide
  · rcases h3 with (h | h) | h <;> subst h <;> decide
  · simp_all

/-- Observable output of an InputHandler operation: an event delivered
to a pending resolver, the interrupt callback firing, or a terminal
write (a freshly shown input or continuation marker, a permission
re-display, the Ctrl+C warning) or the SIGINT emission. -/
inductive Emit where
  | promptEvent (text : Str)
  | commandEvent (name : Str)
  | exitEvent
  | permissionEvent (r : PermissionResponse)
  | interruptCallbackFired (text : Str)
  | showPrompt
  | showContinuationPrompt
  | permissionReprompt
  | ctrlCWarning
  | sigint
deriving DecidableEq, Repr

/-- The private mutable fields of InputHandler (src/input/handler.ts
lines 11-36).  The two resolver fields and the interrupt callback are
modelled by whether they are currently set; Date.now() values are
naturals in milliseconds. -/
structure HandlerState where
  history : List Str := []
  interruptQueue : List Str := []
  interruptCallbackRegistered : Bool := false
  isCapturing : Bool := false
  captureBuffer : Str := []
  multilineBuffer : List Str := []
  isMultilineMode : Bool := false
  skipNextLine : Bool := false
  pendingResolve : Bool := false
  pendingPermissionResolve : Bool := false
  lastCtrlCTime : Nat := 0
deriving DecidableEq, Repr

/-- maxHistory field of InputHandler. -/
def maxHistory : Nat := 100

/-- The history push of InputHandler.processInput (lines 187-192):
append, then shift the oldest entry once the capacity is exceeded. -/
def pushHistory (h : List Str) (entry : Str) : List Str :=
  let h := h ++ [entry]
  if h.length > maxHistory then h.drop 1 else h

/-- InputHandler.submitInterrupt (lines 241-246): push onto the
interrupt queue and fire the registered callback, if any. -/
def submitInterrupt (s : HandlerState) (text : Str) : HandlerState × List Emit :=
  ({ s with interruptQueue := s.interruptQueue ++ [text] },
   if s.interruptCallbackRegistered then [Emit.interruptCallbackFired text] else [])

/-- InputHandler.processInput (lines 183-218): trim, record history,
then dispatch in order: single-line slash command, capture-mode
interrupt, prompt resolution, empty-line re-display. -/
def processInput (s : HandlerState) (text : Str) : HandlerState × List Emit :=
  let trimmed := strTrim text
  let s := if !trimmed.isEmpty then { s with history := pushHistory s.history trimmed } else s
  if (str "/").isPrefixOf trimmed && !(trimmed.contains '\n') then
    let command := strToLower (trimmed.drop 1)
    if s.pendingResolve then
      ({ s with pendingResolve := false }, [Emit.commandEvent command])
    else
      (s, [])
  else if s.isCapturing && !trimmed.isEmpty then
    submitInterrupt s trimmed
  else if s.pendingResolve && !trimmed.isEmpty then
    ({ s with pendingResolve := false }, [Emit.promptEvent trimmed])
  else if s.pendingResolve && trimmed.isEmpty then
    (s, [Emit.showPrompt])
  else
    (s, [])

/-- InputHandler.handleLine (lines 133-178): one-shot skip after
Option+Enter, then permission precedence, then backslash continuation,
then multiline flush, then normal single-line input. -/
def handleLine (s : HandlerState) (line : Str) : HandlerState × List Emit :=
  if s.skipNextLine then
    ({ s with skipNextLine := false }, [])
  else if s.pendingPermissionResolve then
    match parsePermissionResponse (strTrim line) with
    | some r => ({ s with pendingPermissionResolve := false }, [Emit.permissionEvent r])
    | none => (s, [Emit.permissionReprompt])
  else if (str "\\").isSuffixOf line then
    ({ s with multilineBuffer := s.multilineBuffer ++ [line.dropLast],
              isMultilineMode := true },
     [Emit.showContinuationPrompt])
  else if s.isMultilineMode then
    processInput { s with multilineBuffer := [], isMultilineMode := false }
      (List.intercalate (str "\n") (s.multilineBuffer ++ [line]))
  else
    processInput s line

/-- InputHandler.enableCapture (lines 288-291). -/
def enableCapture (s : HandlerState) : HandlerState :=
  { s with isCapturing := true, captureBuffer := [] }

/-- InputHandler.disableCapture (lines 296-299). -/
def disableCapture (s : HandlerState) : HandlerState :=
  { s with isCapturing := false, captureBuffer := [] }

/-- InputHandler.getNextInterrupt (lines 311-313): shift the oldest
queued interrupt, or report none. -/
def getNextInterrupt (s : HandlerState) : HandlerState × Option Str :=
  match s.interruptQueue with
  | [] => (s, none)
  | i :: rest => ({ s with interruptQueue := rest }, some i)

/-- The Ctrl+C branch of InputHandler.setupRawMode (lines 95-126):
cancel multiline if active; else submit a non-empty capture buffer as
an interrupt; else require a second press within ctrlCTimeoutMs = 2000
milliseconds of the last one before emitting SIGINT, warning on a
first press. -/
def ctrlCKeypress (s : HandlerState) (now : Nat) : HandlerState × List Emit :=
  if s.isMultilineMode then
    ({ s with multilineBuffer := [], isMultilineMode := false, skipNextLine := false },
     [Emit.showPrompt])
  else if s.isCapturing && !s.captureBuffer.isEmpty then
    let r := submitInterrupt s s.captureBuffer
    ({ r.1 with captureBuffer := [] }, r.2)
  else if now - s.lastCtrlCTime < 2000 then
    (s, [Emit.sigint])
  else
    ({ s with lastCtrlCTime := now }, [Emit.ctrlCWarning, Emit.showPrompt])

/-- C3 counterexample: in capture mode with no pending prompt resolver
(the state a streaming turn leaves the handler in), the submission
"/help" matches the command branch of processInput, which precedes the
capture branch: it is not routed to Interrupt (the interrupt queue is
untouched and no callback fires, the line is discarded), refuting the
claim that every non-empty submission during capture routes to
Interrupt. -/
theorem processInput_capture_slash_counterexample :
    (processInput { isCapturing := true } (str "/help")).2 = [] ∧
    (processInput { isCapturing := true } (str "/help")).1.interruptQueue = [] := by
  decide

/-- C3 amended: while capture mode is active no submission is accepted
as a new Prompt, and every non-empty submission other than a
single-line slash command routes to Interrupt (appended to the
interrupt queue); a single-line submission beginning with the slash is
still classified as a Command and never reaches the interrupt queue. -/
theorem processInput_capture_spec (s : HandlerState) (text : Str)
    (hcap : s.isCapturing = true) :
    (∀ t, Emit.promptEvent t ∉ (processInput s text).2) ∧
    ((¬ (str "/") <+: strTrim text ∨ '\n' ∈ strTrim text) →
      strTrim text ≠ [] →
      (processInput s text).1.interruptQueue = s.interruptQueue ++ [strTrim text]) ∧
    ((str "/") <+: strTrim text → '\n' ∉ strTrim text →
      (processInput s text).1.interruptQueue = s.interruptQueue) := by
  by_cases hc : (str "/") <+: strTrim text <;>
    by_cases hn : ('\n') ∈ strTrim text <;>
      by_cases he : strTrim text = [] <;>
        by_cases hpr : s.pendingResolve = true <;>
          simp_all [processInput, submitInterrupt]

/-- Witness for C3 amended at a concrete capture-mode state and a
concrete plain-text submission. -/
theorem processInput_capture_spec_witness :
    (∀ t, Emit.promptEvent t ∉
      (processInput { isCapturing := true } (str "check main.go")).2) ∧
    ((¬ (str "/") <+: strTrim (str "check main.go") ∨
        '\n' ∈ strTrim (str "check main.go")) →
      strTrim (str "check main.go") ≠ [] →
      (processInput { isCapturing := true } (str "check main.go")).1.interruptQueue =
        ({ isCapturing := true } : HandlerState).interruptQueue ++
          [strTrim (str "check main.go")]) ∧
    ((str "/") <+: strTrim (str "check main.go") →
      '\n' ∉ strTrim (str "check main.go") →
      (processInput { isCapturing := true } (str "check main.go")).1.interruptQueue =
        ({ isCapturing := true } : HandlerState).interruptQueue) :=
  processInput_capture_spec { isCapturing := true } (str "check main.go") rfl

/-- C5: while a permission resolver is pending, handleLine never
produces a Prompt or Command event for any incoming line, and an
invalid permission response (such as "/help") leaves the permission
resolver pending, re-displaying the permission hint in place when the
line is not the one-shot skipped line. -/
theorem handleLine_permission_precedence (s : HandlerState) (line : Str)
    (hperm : s.pendingPermissionResolve = true) :
    (∀ t, Emit.promptEvent t ∉ (handleLine s line).2 ∧
          Emit.commandEvent t ∉ (handleLine s line).2) ∧
    (parsePermissionResponse (strTrim line) = none →
      (handleLine s line).1.pendingPermissionResolve = true ∧
      (s.skipNextLine = false → (handleLine s line).2 = [Emit.permissionReprompt])) := by
  unfold handleLine
  rcases hskip : s.skipNextLine <;> simp [hskip, hperm] <;>
    rcases hp : parsePermissionResponse (strTrim line) <;> simp [hp, hperm]

/-- Witness for C5: submitting "/help" while a permission resolver is
pending re-prompts and produces no Command or Prompt event. -/
theorem handleLine_permission_precedence_witness :
    (∀ t, Emit.promptEvent t ∉
        (handleLine { pendingPermissionResolve := true } (str "/help")).2 ∧
      Emit.commandEvent t ∉
        (handleLine { pendingPermissionResolve := true } (str "/help")).2) ∧
    (parsePermissionResponse (strTrim (str "/help")) = none →
      (handleLine { pendingPermissionResolve := true } (str "/help")).1.pendingPermissionResolve
          = true ∧
      (({ pendingPermissionResolve := true } : HandlerState).skipNextLine = false →
        (handleLine { pendingPermissionResolve := true } (str "/help")).2 =
          [Emit.permissionReprompt])) :=
  handleLine_permission_precedence { pendingPermissionResolve := true } (str "/help") rfl

/-- C6: from a quiescent prompt-awaiting state, the continuation
sequence of submitted lines a-backslash, b-backslash, c produces a
continuation display for each of the two intermediate lines (no Prompt,
Command or Interrupt event) and exactly one final submission, a Prompt
carrying the three lines joined by newlines with the trailing
backslashes stripped. -/
theorem handleLine_multiline_composition (s : HandlerState)
    (hml : s.isMultilineMode = false) (hbuf : s.multilineBuffer = [])
    (hskip : s.skipNextLine = false) (hperm : s.pendingPermissionResolve = false)
    (hcap : s.isCapturing = false) (hres : s.pendingResolve = true) :
    (handleLine s (str "a\\")).2 = [Emit.showContinuationPrompt] ∧
    (handleLine (handleLine s (str "a\\")).1 (str "b\\")).2 =
      [Emit.showContinuationPrompt] ∧
    (handleLine (handleLine (handleLine s (str "a\\")).1 (str "b\\")).1 (str "c")).2 =
      [Emit.promptEvent (str "a\nb\nc")] := by
  obtain ⟨hist, iq, cb, cap, cbuf, mlb, mlm, skip, pres, pperm, time⟩ := s
  simp only at hml hbuf hskip hperm hcap hres
  subst hml hbuf hskip hperm hcap hres
  exact ⟨rfl, rfl, rfl⟩

/-- Witness for C6 at the default handler state with a pending prompt
resolver. -/
theorem handleLine_multiline_composition_witness :
    (handleLine { pendingResolve := true } (str "a\\")).2 =
      [Emit.showContinuationPrompt] ∧
    (handleLine (handleLine { pendingResolve := true } (str "a\\")).1 (str "b\\")).2 =
      [Emit.showContinuationPrompt] ∧
    (handleLine (handleLine (handleLine { pendingResolve := true } (str "a\\")).1
        (str "b\\")).1 (str "c")).2 =
      [Emit.promptEvent (str "a\nb\nc")] :=
  handleLine_multiline_composition { pendingResolve := true } rfl rfl rfl rfl rfl rfl

/-- C8: with multiline inactive and no non-empty capture buffer, a
Ctrl+C press at least the 2000 ms timeout after the recorded last press
shows the warning and does not emit SIGINT; a second press within
2000 ms of the first emits SIGINT; a second press at least 2000 ms
after the first behaves like a first press again. -/
theorem ctrlCKeypress_double_cancel (s : HandlerState) (t1 t2 t3 : Nat)
    (hml : s.isMultilineMode = false)
    (hcap : s.isCapturing = false ∨ s.captureBuffer = [])
    (h1 : s.lastCtrlCTime + 2000 ≤ t1)
    (h2 : t2 - t1 < 2000)
    (h3 : t1 + 2000 ≤ t3) :
    (ctrlCKeypress s t1).2 = [Emit.ctrlCWarning, Emit.showPrompt] ∧
    Emit.sigint ∉ (ctrlCKeypress s t1).2 ∧
    (ctrlCKeypress (ctrlCKeypress s t1).1 t2).2 = [Emit.sigint] ∧
    (ctrlCKeypress (ctrlCKeypress s t1).1 t3).2 =
      [Emit.ctrlCWarning, Emit.showPrompt] := by
  have hc : (s.isCapturing && !s.captureBuffer.isEmpty) = false := by
    rcases hcap with h | h <;> simp [h]
  have hn1 : ¬ (t1 - s.lastCtrlCTime < 2000) := by omega
  have hn3 : ¬ (t3 - t1 < 2000) := by omega
  simp [ctrlCKeypress, hml, hc, hn1, hn3, h2]

/-- Witness for C8 with the fresh handler state and presses at 2000,
2500 and 4000 ms. -/
theorem ctrlCKeypress_double_cancel_witness :
    (ctrlCKeypress {} 2000).2 = [Emit.ctrlCWarning, Emit.showPrompt] ∧
    Emit.sigint ∉ (ctrlCKeypress {} 2000).2 ∧
    (ctrlCKeypress (ctrlCKeypress {} 2000).1 2500).2 = [Emit.sigint] ∧
    (ctrlCKeypress (ctrlCKeypress {} 2000).1 4000).2 =
      [Emit.ctrlCWarning, Emit.showPrompt] :=
  ctrlCKeypress_double_cancel {} 2000 2500 4000 rfl (Or.inl rfl)
    (by decide) (by decide) (by decide)

/-- The SessionState record of src/types.ts. -/
structure SessionState where
  isStreaming : Bool := false
  pendingInterrupt : Option Str := none
  turnCount : Nat := 0
deriving DecidableEq, Repr

/-- The state a Session instance closes over: its own SessionState, its
InputHandler and the Message Bridge fields. -/
structure SessionFullState where
  session : SessionState := {}
  handler : HandlerState := {}
  bridge : BridgeState := {}
deriving DecidableEq, Repr

/-- Session.handleInterrupt (src/session.ts lines 269-274): ignore the
text unless streaming, otherwise record it in pendingInterrupt. -/
def Session.handleInterrupt (st : SessionState) (text : Str) : SessionState :=
  if !st.isStreaming then st
  else { st with pendingInterrupt := some text }

/-- The tagged payload handlePrompt builds for a polled interrupt
(src/session.ts line 198). -/
def interruptTag (i : Str) : UserMessageInput :=
  createUserMessage (str "[User interrupt] " ++ i)

/-- One interrupt capture at system level: InputHandler.submitInterrupt
runs, and when the Session has registered its callback (constructor
line 55), the callback body Session.handleInterrupt runs on the same
text. -/
def captureInterrupt (f : SessionFullState) (text : Str) : SessionFullState :=
  let r := submitInterrupt f.handler text
  { f with handler := r.1,
           session := if f.handler.interruptCallbackRegistered then
               Session.handleInterrupt f.session text
             else f.session }

/-- The interrupt poll handlePrompt performs after handling each
inbound message (src/session.ts lines 195-199): getNextInterrupt, and
on a hit queueMessage of the tagged payload. -/
def turnStep (f : SessionFullState) : SessionFullState :=
  match getNextInterrupt f.handler with
  | (h1, some i) =>
      { f with handler := h1, bridge := queueMessage f.bridge (interruptTag i) }
  | (h1, none) => { f with handler := h1 }

/-- The inbound for-await loop of handlePrompt: the turn is driven by a
list of inbound message arrivals, the i-th paired with the interrupts
captured (in order) between the previous arrival and this one; each
arrival runs one poll step. -/
def runInbound (f : SessionFullState) (batches : List (List Str)) : SessionFullState :=
  batches.foldl (fun f batch => turnStep (batch.foldl captureInterrupt f)) f

/-- Outcome of the inbound remote stream for one turn: it either
completes normally or raises after some events, the payload listing the
interrupt batches of the events processed before the end. -/
inductive InboundOutcome where
  | ok (batches : List (List Str))
  | failed (batches : List (List Str))
deriving DecidableEq, Repr

/-- The interrupt batches of the events a turn actually processes. -/
def InboundOutcome.batches : InboundOutcome → List (List Str)
  | .ok bs => bs
  | .failed bs => bs

/-- Renderer-visible output of a turn that the model tracks. -/
inductive SessionEvent where
  | showError
deriving DecidableEq, Repr

/-- Steps 1-2 of a turn in Session.handlePrompt (src/session.ts lines
166-187): mark streaming, bump the turn counter, enable interrupt
capture, and queue the originating prompt as the first outbound
payload. -/
def turnSetup (f : SessionFullState) (text : Str) : SessionFullState :=
  let st1 := { f.session with isStreaming := true, turnCount := f.session.turnCount + 1 }
  let f1 := { f with session := st1, handler := enableCapture f.handler }
  { f1 with bridge := queueMessage f1.bridge (createUserMessage text) }

/-- Session.handlePrompt (src/session.ts lines 165-211): after
turnSetup, drain the inbound stream while polling interrupts, catch a
raised failure as showError, and in the finally block clear streaming,
disable capture and end the message stream. -/
def Session.handlePrompt (f : SessionFullState) (text : Str)
    (inbound : InboundOutcome) : SessionFullState × List SessionEvent :=
  let f3 := runInbound (turnSetup f text) inbound.batches
  let errs : List SessionEvent :=
    match inbound with
    | .ok _ => []
    | .failed _ => [SessionEvent.showError]
  ({ f3 with
      session := { f3.session with isStreaming := false },
      handler := disableCapture f3.handler,
      bridge := endMessageStream f3.bridge },
   errs)

/-- Pure specification of the interrupt splicing a turn performs: given
the pre-existing interrupt queue and the arrival batches, the list of
interrupt texts enqueued onto the bridge in order (one poll per inbound
event) and the interrupts left in the queue when the stream ends. -/
def spliceRun (q : List Str) (batches : List (List Str)) : List Str × List Str :=
  match batches with
  | [] => ([], q)
  | b :: bs =>
      match q ++ b with
      | [] => spliceRun [] bs
      | i :: rest =>
          let r := spliceRun rest bs
          (i :: r.1, r.2)

/-- queueMessage always appends its payload to the enqueue log. -/
theorem queueMessage_enqueued (b : BridgeState) (m : UserMessageInput) :
    (queueMessage b m).enqueued = b.enqueued ++ [m] := by
  cases h : b.messageResolvers <;> simp [queueMessage, h]

/-- Folding queueMessage over a list of interrupts appends the tagged
payloads to the enqueue log in order. -/
theorem foldl_queueMessage_enqueued (sent : List Str) (b : BridgeState) :
    (sent.foldl (fun b i => queueMessage b (interruptTag i)) b).enqueued =
      b.enqueued ++ sent.map interruptTag := by
  induction sent generalizing b with
  | nil => simp
  | cons i rest ih => simp [ih, queueMessage_enqueued]

/-- A fold of captureInterrupt appends the batch to the interrupt queue
and leaves the bridge untouched. -/
theorem captureFold (batch : List Str) (f : SessionFullState) :
    (batch.foldl captureInterrupt f).handler =
      { f.handler with interruptQueue := f.handler.interruptQueue ++ batch } ∧
    (batch.foldl captureInterrupt f).bridge = f.bridge := by
  induction batch generalizing f with
  | nil => simp
  | cons a rest ih =>
      rcases ih (captureInterrupt f a) with ⟨h1, h2⟩
      refine ⟨?_, ?_⟩
      · rw [List.foldl_cons, h1]
        simp [captureInterrupt, submitInterrupt]
      · rw [List.foldl_cons, h2]
        simp [captureInterrupt, submitInterrupt]

/-- Case analysis of one poll step. -/
theorem turnStep_char (f : SessionFullState) :
    (f.handler.interruptQueue = [] ∧ (turnStep f).bridge = f.bridge ∧
      (turnStep f).handler.interruptQueue = []) ∨
    (∃ i rest, f.handler.interruptQueue = i :: rest ∧
      (turnStep f).bridge = queueMessage f.bridge (interruptTag i) ∧
      (turnStep f).handler.interruptQueue = rest) := by
  cases hq : f.handler.interruptQueue <;>
    simp [turnStep, getNextInterrupt, hq]

/-- The inbound loop realizes spliceRun: the bridge receives the spliced
interrupts as tagged payloads, in order, and the leftover interrupts
remain queued. -/
theorem runInbound_char (batches : List (List Str)) (f : SessionFullState) :
    (runInbound f batches).bridge =
      (spliceRun f.handler.interruptQueue batches).1.foldl
        (fun b i => queueMessage b (interruptTag i)) f.bridge ∧
    (runInbound f batches).handler.interruptQueue =
      (spliceRun f.handler.interruptQueue batches).2 := by
  induction batches generalizing f with
  | nil => simp [runInbound, spliceRun]
  | cons b bs ih =>
      have hrun : runInbound f (b :: bs) =
          runInbound (turnStep (b.foldl captureInterrupt f)) bs := by
        simp [runInbound]
      rcases captureFold b f with ⟨hh, hbr⟩
      have hgq : (b.foldl captureInterrupt f).handler.interruptQueue =
          f.handler.interruptQueue ++ b := by rw [hh]
      rcases turnStep_char (b.foldl captureInterrupt f) with
        ⟨h0, hbr2, hq2⟩ | ⟨i, rest, h0, hbr2, hq2⟩
      · rw [hgq] at h0
        rcases ih (turnStep (b.foldl captureInterrupt f)) with ⟨ih1, ih2⟩
        rw [hq2] at ih1 ih2
        rw [hbr2, hbr] at ih1
        constructor
        · rw [hrun, ih1]
          simp [spliceRun, h0]
        · rw [hrun, ih2]
          simp [spliceRun, h0]
      · rw [hgq] at h0
        rcases ih (turnStep (b.foldl captureInterrupt f)) with ⟨ih1, ih2⟩
        rw [hq2] at ih1 ih2
        rw [hbr2, hbr] at ih1
        constructor
        · rw [hrun, ih1]
          simp [spliceRun, h0]
        · rw [hrun, ih2]
          simp [spliceRun, h0]

/-- spliceRun delivers a queue-order program: the enqueued interrupts
are a front segment of all captured interrupts and the leftover is the
matching back segment. -/
theorem spliceRun_take_drop (batches : List (List Str)) (q : List Str) :
    ∃ k, (spliceRun q batches).1 = (q ++ batches.flatten).take k ∧
         (spliceRun q batches).2 = (q ++ batches.flatten).drop k := by
  induction batches generalizing q with
  | nil => exact ⟨0, by simp [spliceRun], by simp [spliceRun]⟩
  | cons b bs ih =>
      cases h : q ++ b with
      | nil =>
          rcases List.append_eq_nil.mp h with ⟨hq, hb⟩
          rcases ih [] with ⟨k, h1, h2⟩
          exact ⟨k, by simp [spliceRun, h, hq, hb, h1], by simp [spliceRun, h, hq, hb, h2]⟩
      | cons i rest =>
          rcases ih rest with ⟨k, h1, h2⟩
          refine ⟨k + 1, ?_, ?_⟩
          · have : q ++ (b :: bs).flatten = i :: (rest ++ bs.flatten) := by
              simp [List.flatten, ← List.append_assoc, h]
            rw [this]
            simp [spliceRun, h, h1]
          · have : q ++ (b :: bs).flatten = i :: (rest ++ bs.flatten) := by
              simp [List.flatten, ← List.append_assoc, h]
            rw [this]
            simp [spliceRun, h, h2]

/-- C2 counterexample: interrupts "A" then "B" are both captured while
streaming, but only one inbound event follows, so the single poll of
that iteration delivers the tagged "A" and the turn ends with "B" still
in the interrupt queue: the bridge never receives the tagged "B"
before endMessageStream, refuting the claim that every interrupt
captured during the turn reaches the bridge before the stream ends. -/
theorem handlePrompt_interrupt_drop_counterexample :
    (Session.handlePrompt
        { handler := { interruptCallbackRegistered := true } } (str "p")
        (InboundOutcome.ok [[str "A", str "B"]])).1.bridge.enqueued =
      [createUserMessage (str "p"), interruptTag (str "A")] ∧
    interruptTag (str "B") ∉
      (Session.handlePrompt
        { handler := { interruptCallbackRegistered := true } } (str "p")
        (InboundOutcome.ok [[str "A", str "B"]])).1.bridge.enqueued ∧
    (Session.handlePrompt
        { handler := { interruptCallbackRegistered := true } } (str "p")
        (InboundOutcome.ok [[str "A", str "B"]])).1.handler.interruptQueue =
      [str "B"] := by
  decide

/-- C2 amended: for a turn starting with an empty interrupt queue and a
fresh enqueue log, the payloads enqueued onto the bridge are exactly
the originating prompt followed by the tagged captured interrupts in
capture order — no reordering, merging or duplication — but only a
front segment of them (at most one per inbound event following the
captures); the remaining captured interrupts are still in the
interrupt queue when endMessageStream runs and are not delivered in
this turn. -/
theorem handlePrompt_interrupt_order (f : SessionFullState) (text : Str)
    (batches : List (List Str))
    (hq : f.handler.interruptQueue = []) (hb : f.bridge.enqueued = []) :
    ∃ k,
      (Session.handlePrompt f text (InboundOutcome.ok batches)).1.bridge.enqueued =
        createUserMessage text :: (batches.flatten.take k).map interruptTag ∧
      (Session.handlePrompt f text (InboundOutcome.ok batches)).1.handler.interruptQueue =
        batches.flatten.drop k := by
  rcases spliceRun_take_drop batches [] with ⟨k, hs1, hs2⟩
  simp only [List.nil_append] at hs1 hs2
  have hchar := runInbound_char batches (turnSetup f text)
  have hqq : (turnSetup f text).handler.interruptQueue = [] := by
    simp [turnSetup, enableCapture, hq]
  have hbb : (turnSetup f text).bridge.enqueued = [createUserMessage text] := by
    simp [turnSetup, queueMessage_enqueued, hb]
  refine ⟨k, ?_, ?_⟩
  · have e1 : (Session.handlePrompt f text (InboundOutcome.ok batches)).1.bridge.enqueued =
        (runInbound (turnSetup f text) batches).bridge.enqueued := rfl
    rw [e1, hchar.1, foldl_queueMessage_enqueued, hbb, hqq, hs1]
    simp
  · have e2 : (Session.handlePrompt f text
          (InboundOutcome.ok batches)).1.handler.interruptQueue =
        (runInbound (turnSetup f text) batches).handler.interruptQueue := rfl
    rw [e2, hchar.2, hqq, hs2]

/-- Witness for C2 amended: a fresh session state with interrupts "A"
and "B" arriving in separate batches, each followed by an inbound
event. -/
theorem handlePrompt_interrupt_order_witness :
    ∃ k,
      (Session.handlePrompt {} (str "p")
          (InboundOutcome.ok [[str "A"], [str "B"]])).1.bridge.enqueued =
        createUserMessage (str "p") ::
          (([[str "A"], [str "B"]] : List (List Str)).flatten.take k).map interruptTag ∧
      (Session.handlePrompt {} (str "p")
          (InboundOutcome.ok [[str "A"], [str "B"]])).1.handler.interruptQueue =
        ([[str "A"], [str "B"]] : List (List Str)).flatten.drop k :=
  handlePrompt_interrupt_order {} (str "p") [[str "A"], [str "B"]] rfl rfl

/-- C4: turn cleanup is unconditional.  Whatever the outcome of the
inbound stream, handlePrompt leaves isStreaming false, capture disabled
with the capture buffer cleared, and the bridge ended (message queue
and resolver list empty); a raised inbound failure is caught and
surfaced as exactly one showError rather than propagating (the
function is total and produces the same cleanup). -/
theorem handlePrompt_unconditional_cleanup (f : SessionFullState) (text : Str)
    (inbound : InboundOutcome) :
    (Session.handlePrompt f text inbound).1.session.isStreaming = false ∧
    (Session.handlePrompt f text inbound).1.handler.isCapturing = false ∧
    (Session.handlePrompt f text inbound).1.handler.captureBuffer = [] ∧
    (Session.handlePrompt f text inbound).1.bridge.messageQueue = [] ∧
    (Session.handlePrompt f text inbound).1.bridge.messageResolvers = [] ∧
    (Session.handlePrompt f text inbound).2 =
      (match inbound with
        | InboundOutcome.ok _ => []
        | InboundOutcome.failed _ => [SessionEvent.showError]) := by
  cases inbound <;>
    simp [Session.handlePrompt, disableCapture, endMessageStream]

/-- A session whose interrupt callback registration is forced to b. -/
def withCallback (f : SessionFullState) (b : Bool) : SessionFullState :=
  { f with handler := { f.handler with interruptCallbackRegistered := b } }

/-- C10: Session.handleInterrupt writes only pendingInterrupt — it
preserves isStreaming and turnCount and takes no other state — and the
bridge state a whole turn produces is identical whether or not the
interrupt callback is registered: interrupts reach the bridge only
through the polling of getNextInterrupt, never through the callback. -/
theorem handleInterrupt_frame (st : SessionState) (text : Str)
    (f : SessionFullState) (prompt : Str) (inbound : InboundOutcome) :
    (Session.handleInterrupt st text).isStreaming = st.isStreaming ∧
    (Session.handleInterrupt st text).turnCount = st.turnCount ∧
    (Session.handlePrompt (withCallback f true) prompt inbound).1.bridge =
      (Session.handlePrompt (withCallback f false) prompt inbound).1.bridge := by
  refine ⟨?_, ?_, ?_⟩
  · unfold Session.handleInterrupt
    split <;> rfl
  · unfold Session.handleInterrupt
    split <;> rfl
  · have ht := runInbound_char inbound.batches (turnSetup (withCallback f true) prompt)
    have hf0 := runInbound_char inbound.batches (turnSetup (withCallback f false) prompt)
    have e1 : (Session.handlePrompt (withCallback f true) prompt inbound).1.bridge =
        endMessageStream
          (runInbound (turnSetup (withCallback f true) prompt) inbound.batches).bridge := rfl
    have e2 : (Session.handlePrompt (withCallback f false) prompt inbound).1.bridge =
        endMessageStream
          (runInbound (turnSetup (withCallback f false) prompt) inbound.batches).bridge := rfl
    have hbeq : (turnSetup (withCallback f true) prompt).bridge =
        (turnSetup (withCallback f false) prompt).bridge := by
      simp [turnSetup, withCallback]
    have hqeq : (turnSetup (withCallback f true) prompt).handler.interruptQueue =
        (turnSetup (withCallback f false) prompt).handler.interruptQueue := by
      simp [turnSetup, withCallback, enableCapture]
    rw [e1, e2, ht.1, hf0.1, hbeq, hqeq]

end AgentCli
